import Mathlib

/-!
Verification of the Aurora receipt server (server.cjs) against its
natural-language specification.

The development shallowly embeds the two pieces of domain logic:

* `determineSubscriptionStatus` (server.cjs lines 88-110): the subscription
  status resolver, modelled both at full JavaScript fidelity (array entries may
  be null / primitives, property access on null throws, the sort comparator can
  return NaN) and, for the common case of arrays of transaction records, as the
  pure function `resolveT`.
* the `/verify-receipt` request handler (server.cjs lines 113-203), modelled as
  `verifyReceiptHandler` over an upstream oracle `Endpoint → VerificationRequest
  → AppleResponse`; the list of outbound calls is returned explicitly so that
  retry behaviour can be stated.

JavaScript numbers that the code actually observes (values of
`Number(entry.expires_date_ms || 0)`) are modelled by `JSNum`: NaN, the two
infinities, or a finite integer (receipt expiry values are integral epoch
milliseconds).  Array sorting follows the ECMAScript requirement of a stable
sort; the model processes elements left to right, inserting each element in
front of the first earlier element that the comparator reports as strictly
greater, which coincides with the unique stable descending order whenever the
comparator is consistent (all keys finite) and with engine behaviour when the
comparator returns NaN (a NaN comparison is neither < 0 nor > 0, so the
relative order of the pair is kept).
-/

/-- A JavaScript number as observed by the resolver: NaN, an infinity, or a
finite value.  Expiry timestamps are integral epoch milliseconds, so finite
values are modelled by `Int`. -/
inductive JSNum where
  | nan : JSNum
  | posInf : JSNum
  | negInf : JSNum
  | fin : Int → JSNum
deriving DecidableEq, Repr

/-- JavaScript subtraction `a - b` on `JSNum` (NaN propagates, `∞ - ∞ = NaN`). -/
def jsSub : JSNum → JSNum → JSNum
  | JSNum.nan, _ => JSNum.nan
  | _, JSNum.nan => JSNum.nan
  | JSNum.posInf, JSNum.posInf => JSNum.nan
  | JSNum.posInf, _ => JSNum.posInf
  | JSNum.negInf, JSNum.negInf => JSNum.nan
  | JSNum.negInf, _ => JSNum.negInf
  | JSNum.fin _, JSNum.posInf => JSNum.negInf
  | JSNum.fin _, JSNum.negInf => JSNum.posInf
  | JSNum.fin a, JSNum.fin b => JSNum.fin (a - b)

/-- The test `x < 0` on a JavaScript number (false for NaN). -/
def jsLtZero : JSNum → Bool
  | JSNum.negInf => true
  | JSNum.fin x => decide (x < 0)
  | _ => false

/-- `Number.isFinite`. -/
def jsFiniteB : JSNum → Bool
  | JSNum.fin _ => true
  | _ => false

/-- The test `k > now` on a JavaScript number against the integer clock value
(false for NaN and `-∞`, true for `+∞`). -/
def jsGtNowB (k : JSNum) (now : Int) : Bool :=
  match k with
  | JSNum.fin x => decide (now < x)
  | JSNum.posInf => true
  | _ => false

/-- The JavaScript value stored in a transaction's `expires_date_ms` property,
abstracted to exactly what the code observes via `Number(v || 0)`:

* `absent`  — the property is missing / `undefined` / `null`;
* `falsy`   — a falsy value (`0`, `""`, `false`, `NaN`): the `|| 0` fallback
  makes the code use `0`;
* `value n` — a truthy value whose `Number(·)` conversion is `n` (for the usual
  receipt payloads this is a non-empty decimal string, so `n` is its numeric
  value; a non-numeric string gives `JSNum.nan`). -/
inductive JsField where
  | absent : JsField
  | falsy : JsField
  | value : JSNum → JsField
deriving DecidableEq, Repr

/-- A transaction record from `latest_receipt_info`.  Only the two properties
the code reads are modelled; `product_id = some ""` models an empty string
(falsy), `none` models a missing property. -/
structure Transaction where
  expires_date_ms : JsField
  product_id : Option String
deriving DecidableEq, Repr

/-- The sort / find key `Number(t.expires_date_ms || 0)` (server.cjs lines
94-95 and 102). -/
def expiryKey (t : Transaction) : JSNum :=
  match t.expires_date_ms with
  | JsField.absent => JSNum.fin 0
  | JsField.falsy => JSNum.fin 0
  | JsField.value n => n

/-- Specification-side view of a transaction's expiration timestamp: its
finite numeric value, or `none` when the timestamp is missing or not a finite
number.  (A present falsy value such as `0` or `""` converts to the number
`0`.) -/
def numericExpiry (t : Transaction) : Option Int :=
  match t.expires_date_ms with
  | JsField.absent => none
  | JsField.falsy => some 0
  | JsField.value (JSNum.fin x) => some x
  | JsField.value _ => none

/-- Specification-side sort key: the numeric expiry, with an absent or
non-numeric timestamp treated as `0` (the spec's "treated as already
expired"). -/
def keySpec (t : Transaction) : Int :=
  (numericExpiry t).getD 0

/-- The sort comparator of server.cjs lines 93-97: `(a, b) => bExpiry -
aExpiry` (descending by expiry). -/
def cmpT (a b : Transaction) : JSNum :=
  jsSub (expiryKey b) (expiryKey a)

/-- Stable insertion of `x` (a later element of the original array) into the
already sorted prefix: `x` is placed in front of the first element `y` with
`comparator x y < 0`; on a tie, or when the comparator returns NaN, `x` stays
after `y`. -/
def insertT (x : Transaction) : List Transaction → List Transaction
  | [] => [x]
  | y :: ys => if jsLtZero (cmpT x y) then x :: y :: ys else y :: insertT x ys

/-- Left-to-right insertion sort: the accumulated list is the sorted image of
the already processed prefix. -/
def sortTAux : List Transaction → List Transaction → List Transaction
  | [], acc => acc
  | x :: xs, acc => sortTAux xs (insertT x acc)

/-- The stable descending-by-expiry sort `[...latestReceiptInfo].sort(...)` of
server.cjs lines 93-97, restricted to arrays of transaction records. -/
def sortT (l : List Transaction) : List Transaction :=
  sortTAux l []

/-- The `find` predicate of server.cjs lines 101-104:
`Number.isFinite(expiresAt) && expiresAt > now`. -/
def activeP (now : Int) (t : Transaction) : Bool :=
  jsFiniteB (expiryKey t) && jsGtNowB (expiryKey t) now

/-- The resolver's result `{ isPremium, latestTransaction }`. -/
structure SubStatusT where
  isPremium : Bool
  latestTransaction : Option Transaction
deriving DecidableEq, Repr

/-- `determineSubscriptionStatus` (server.cjs lines 88-110) restricted to an
array of transaction records: sort a copy descending by expiry, take the head
as `latestTransaction` (`sortedByExpiry[0] || null`; records are objects and
hence truthy), and set `isPremium` to whether `find` located a still-active
entry (`Boolean(active)`; a found record is truthy). -/
def resolveT (l : List Transaction) (now : Int) : SubStatusT :=
  let sorted := sortT l
  ⟨(sorted.find? (activeP now)).isSome, sorted.head?⟩

/-- An element of the `latestReceiptInfo` array at full JavaScript fidelity:

* `jnull`  — `null` or `undefined`: reading `expires_date_ms` from it throws a
  TypeError;
* `prim b` — any other primitive (number, string, boolean): property access is
  boxed and yields `undefined` (so the key is `0`); `b` is the value's
  truthiness;
* `obj t`  — an object record (always truthy). -/
inductive JEntry where
  | jnull : JEntry
  | prim : Bool → JEntry
  | obj : Transaction → JEntry
deriving DecidableEq, Repr

/-- The JavaScript exception raised by the resolver. -/
inductive JsErr where
  | typeError : JsErr
deriving DecidableEq, Repr

/-- The argument passed to `determineSubscriptionStatus`:

* `undef`    — `undefined` (`data.latest_receipt_info` missing), which makes
  the default parameter `[]` apply;
* `notArray` — any other non-array value (`Array.isArray` fails);
* `arr l`    — an array. -/
inductive JsArg where
  | undef : JsArg
  | notArray : JsArg
  | arr : List JEntry → JsArg
deriving DecidableEq, Repr

/-- Evaluation of `Number(entry.expires_date_ms || 0)` on an arbitrary array
entry: throws on `null`/`undefined`, yields `0` for non-null primitives, and
reads the record's key otherwise. -/
def entryExpiry : JEntry → Except JsErr JSNum
  | JEntry.jnull => Except.error JsErr.typeError
  | JEntry.prim _ => Except.ok (JSNum.fin 0)
  | JEntry.obj t => Except.ok (expiryKey t)

/-- The sort comparator of server.cjs lines 93-97 on arbitrary entries:
`aExpiry` is evaluated first, then `bExpiry`, then `bExpiry - aExpiry`. -/
def compareE (a b : JEntry) : Except JsErr JSNum :=
  match entryExpiry a with
  | Except.error e => Except.error e
  | Except.ok ka =>
    match entryExpiry b with
    | Except.error e => Except.error e
    | Except.ok kb => Except.ok (jsSub kb ka)

/-- Stable insertion at full fidelity; any comparator call may throw. -/
def insertE (x : JEntry) : List JEntry → Except JsErr (List JEntry)
  | [] => Except.ok [x]
  | y :: ys =>
    match compareE x y with
    | Except.error e => Except.error e
    | Except.ok r =>
      if jsLtZero r then Except.ok (x :: y :: ys)
      else
        match insertE x ys with
        | Except.error e => Except.error e
        | Except.ok t => Except.ok (y :: t)

/-- Left-to-right insertion sort at full fidelity. -/
def sortEAux : List JEntry → List JEntry → Except JsErr (List JEntry)
  | [], acc => Except.ok acc
  | x :: xs, acc =>
    match insertE x acc with
    | Except.error e => Except.error e
    | Except.ok acc2 => sortEAux xs acc2

/-- The sort `[...latestReceiptInfo].sort(...)` on an arbitrary array. -/
def sortE (l : List JEntry) : Except JsErr (List JEntry) :=
  sortEAux l []

/-- The `find` call of server.cjs lines 101-104 on arbitrary entries: evaluate
the predicate left to right, stopping at the first entry whose key is a finite
number greater than `now`; the predicate throws on a `null` entry. -/
def findActiveE (now : Int) : List JEntry → Except JsErr (Option JEntry)
  | [] => Except.ok none
  | e :: es =>
    match entryExpiry e with
    | Except.error err => Except.error err
    | Except.ok k =>
      if jsFiniteB k && jsGtNowB k now then Except.ok (some e)
      else findActiveE now es

/-- Truthiness of an array entry. -/
def entryTruthy : JEntry → Bool
  | JEntry.jnull => false
  | JEntry.prim b => b
  | JEntry.obj _ => true

/-- The expression `sortedByExpiry[0] || null`: `none` for an empty array or a
falsy head element. -/
def headOrNull (l : List JEntry) : Option JEntry :=
  match l.head? with
  | none => none
  | some e => if entryTruthy e then some e else none

/-- The expression `Boolean(active)` applied to the result of `find`. -/
def entryTruthyOpt : Option JEntry → Bool
  | none => false
  | some e => entryTruthy e

/-- The resolver's result at full fidelity. -/
structure SubStatus where
  isPremium : Bool
  latestTransaction : Option JEntry
deriving DecidableEq, Repr

/-- Full-fidelity model of `determineSubscriptionStatus` (server.cjs lines
88-110): a non-array argument (including the `undefined` default-parameter
case, which yields the empty array) returns `{isPremium: false,
latestTransaction: null}`; otherwise a copy of the array is sorted, the head
(`|| null`) becomes `latestTransaction`, and `find` decides `isPremium`.  Any
step may throw a TypeError when an entry is `null` or `undefined`. -/
def determineSubscriptionStatus : JsArg → Int → Except JsErr SubStatus
  | JsArg.notArray, _ => Except.ok ⟨false, none⟩
  | JsArg.undef, _ => Except.ok ⟨false, none⟩
  | JsArg.arr l, now =>
    match sortE l with
    | Except.error e => Except.error e
    | Except.ok sorted =>
      match findActiveE now sorted with
      | Except.error e => Except.error e
      | Except.ok active => Except.ok ⟨entryTruthyOpt active, headOrNull sorted⟩

/-- Heap model for the frame property of `determineSubscriptionStatus`: the
store is a list of JavaScript arrays addressed by index, the argument is the
index `argId` of the caller's array.  The spread `[...latestReceiptInfo]`
allocates a fresh array (appended at index `store.length`) holding a copy of
the argument, and `.sort` mutates that fresh array in place; the argument's
cell is never written.  The returned status is the same computation as
`determineSubscriptionStatus` on the argument's contents. -/
def determineSubscriptionStatusHeap (store : List (List JEntry)) (argId : Nat)
    (now : Int) : List (List JEntry) × Except JsErr SubStatus :=
  let orig := (store[argId]?).getD []
  let copyId := store.length
  let store1 := store ++ [orig]
  match sortE orig with
  | Except.error e => (store1, Except.error e)
  | Except.ok sorted =>
    let store2 := store1.set copyId sorted
    match findActiveE now sorted with
    | Except.error e => (store2, Except.error e)
    | Except.ok active =>
      (store2, Except.ok ⟨entryTruthyOpt active, headOrNull sorted⟩)

/-- The two upstream verification endpoints (server.cjs lines 34-37). -/
inductive Endpoint where
  | production : Endpoint
  | sandbox : Endpoint
deriving DecidableEq, Repr

/-- The fixed status-code-to-message table `APPLE_STATUS_MESSAGES` (server.cjs
lines 39-48); `none` for a code not in the table. -/
def APPLE_STATUS_MESSAGES : Int → Option String
  | 21000 => some "The App Store could not read the JSON object you provided."
  | 21002 => some "The data in the receipt-data property was malformed or missing."
  | 21003 => some "The receipt could not be authenticated."
  | 21004 => some "The shared secret you provided does not match the one on file."
  | 21005 => some "The receipt server is not currently available."
  | 21006 => some "The receipt is valid, but the subscription has expired."
  | 21007 => some "This receipt is from the test environment. Retry against the sandbox server."
  | 21008 => some "This receipt is from the production environment. Retry against the production server."
  | _ => none

/-- The message used by the rejection branch (server.cjs lines 174-176):
`APPLE_STATUS_MESSAGES[data.status] || generic`. -/
def appleStatusMessage (status : Int) : String :=
  (APPLE_STATUS_MESSAGES status).getD
    "Apple receipt validation failed with an unknown status."

/-- The body posted to the upstream service (server.cjs lines 131-135). -/
structure VerificationRequest where
  receipt_data : String
  password : String
  exclude_old_transactions : Bool
deriving DecidableEq, Repr

/-- Construction of the upstream request body: the extracted receipt, the
process-wide shared secret, and `exclude-old-transactions: true`. -/
def mkVerificationRequest (secret receipt : String) : VerificationRequest :=
  ⟨receipt, secret, true⟩

/-- The incoming request body fields the handler reads (server.cjs lines
115-118).  The three receipt fields are the accepted aliases
`req.body['receipt-data']`, `req.body.receiptData`, `req.body.receipt`;
`some ""` models a present-but-empty (falsy) string, `none` a missing field.
`isSandbox` is the already-Boolean-coerced flag. -/
structure RequestBody where
  receipt_data : Option String
  receiptData : Option String
  receipt : Option String
  productId : Option String
  isSandbox : Bool
deriving DecidableEq, Repr

/-- Truthiness of an optional string field (missing and `""` are falsy). -/
def strTruthy : Option String → Bool
  | none => false
  | some s => !(s == "")

/-- The chain `req.body['receipt-data'] || req.body.receiptData ||
req.body.receipt`, collapsed to the receipt value when the chain is truthy and
`none` when every alias is missing or empty (in which case the `!receiptData`
guard fires). -/
def extractReceiptData (b : RequestBody) : Option String :=
  if strTruthy b.receipt_data then b.receipt_data
  else if strTruthy b.receiptData then b.receiptData
  else if strTruthy b.receipt then b.receipt
  else none

/-- A response of the upstream verification service, in the well-formed shape
of the upstream interface (spec section 6): an integer status plus the
optional payload fields the handler reads.  `latest_receipt_info = none`
models the field being absent, in which case the resolver's default parameter
yields the inactive status. -/
structure AppleResponse where
  status : Int
  environment : Option String
  latest_receipt_info : Option (List Transaction)
  latest_receipt : Option String
  pending_renewal_info : Option (List String)
deriving DecidableEq, Repr

/-- The call `determineSubscriptionStatus(data.latest_receipt_info)` on a
well-formed upstream response: an absent field (`undefined`) triggers the
default parameter `[]` and yields the inactive status. -/
def resolveOpt (o : Option (List Transaction)) (now : Int) : SubStatusT :=
  match o with
  | none => ⟨false, none⟩
  | some l => resolveT l now

/-- The JSON body sent back to the caller.  `statusField` is the body's
`status` member (absent on the success branch), `productId` the success
branch's echo field (`none` models JSON `null` or absence); the ISO timestamp
string is not modelled (it carries no claim-relevant information). -/
structure ApiResponse where
  success : Bool
  isPremium : Bool
  statusField : Option Int
  environment : Option String
  latestReceipt : Option String
  latestTransaction : Option Transaction
  pendingRenewalInfo : Option (List String)
  productId : Option String
  message : String
deriving DecidableEq, Repr

/-- The 400 body of the missing-receipt branch (server.cjs lines 120-129). -/
def clientErrorResponse : ApiResponse :=
  { success := false
    isPremium := false
    statusField := some 400
    environment := none
    latestReceipt := none
    latestTransaction := none
    pendingRenewalInfo := none
    productId := none
    message := "Missing receipt data. Provide receipt-data, receiptData, or receipt in the JSON body." }

/-- The expression `productId || latestTransaction?.product_id || null` of
server.cjs line 168. -/
def successProductId (bodyPid : Option String) (lt : Option Transaction) :
    Option String :=
  if strTruthy bodyPid then bodyPid
  else
    match lt with
    | none => none
    | some t => if strTruthy t.product_id then t.product_id else none

/-- The success body (server.cjs lines 160-171); `data.latest_receipt || null`
collapses an empty string to `none`, while `pending_renewal_info || null` keeps
any present array (arrays are truthy even when empty). -/
def successResponse (data : AppleResponse) (st : SubStatusT) (b : RequestBody) :
    ApiResponse :=
  { success := true
    isPremium := st.isPremium
    statusField := none
    environment := data.environment
    latestReceipt := if strTruthy data.latest_receipt then data.latest_receipt else none
    latestTransaction := st.latestTransaction
    pendingRenewalInfo := data.pending_renewal_info
    productId := successProductId b.productId st.latestTransaction
    message := "Receipt validated successfully." }

/-- The rejection body (server.cjs lines 178-186); `environment` falls back to
`"Sandbox"` when the request carried the sandbox flag. -/
def rejectResponse (data : AppleResponse) (st : SubStatusT) (b : RequestBody) :
    ApiResponse :=
  { success := false
    isPremium := st.isPremium
    statusField := some data.status
    environment :=
      if strTruthy data.environment then data.environment
      else if b.isSandbox then some "Sandbox" else none
    latestReceipt := none
    latestTransaction := st.latestTransaction
    pendingRenewalInfo := none
    productId := none
    message := appleStatusMessage data.status }

/-- The handler's observable outcome: HTTP status, JSON body, and the sequence
of outbound upstream calls (endpoint and request body of each). -/
structure HandlerResult where
  httpStatus : Nat
  body : ApiResponse
  calls : List (Endpoint × VerificationRequest)
deriving DecidableEq, Repr

/-- Response assembly from the final upstream data (server.cjs lines 156-186):
run the resolver on `data.latest_receipt_info`, then branch on
`data.status === 0`. -/
def responseFor (data : AppleResponse) (b : RequestBody) (now : Int)
    (calls : List (Endpoint × VerificationRequest)) : HandlerResult :=
  let st := resolveOpt data.latest_receipt_info now
  if data.status == 0 then ⟨200, successResponse data st b, calls⟩
  else ⟨400, rejectResponse data st b, calls⟩

/-- The endpoint of the first attempt (server.cjs lines 144-146). -/
def initialEndpoint (b : RequestBody) : Endpoint :=
  if b.isSandbox then Endpoint.sandbox else Endpoint.production

/-- The `/verify-receipt` handler (server.cjs lines 113-203) over an upstream
oracle mapping (endpoint, request body) to the upstream response.  A missing
receipt returns the 400 client-error body with no outbound call; otherwise the
handler posts to the initial endpoint, resends the identical request to the
Sandbox endpoint exactly once when the response's status is 21007 and the
first attempt was not already at Sandbox (server.cjs lines 150-154), and
assembles the response from the final data.  The catch branch for thrown
upstream errors is outside this model: the oracle always yields a response. -/
def verifyReceiptHandler (upstream : Endpoint → VerificationRequest → AppleResponse)
    (secret : String) (b : RequestBody) (now : Int) : HandlerResult :=
  match extractReceiptData b with
  | none => ⟨400, clientErrorResponse, []⟩
  | some receipt =>
    let rb := mkVerificationRequest secret receipt
    let e1 := initialEndpoint b
    let retry := ((upstream e1 rb).status == 21007) && !(e1 == Endpoint.sandbox)
    if retry then
      responseFor (upstream Endpoint.sandbox rb) b now
        [(e1, rb), (Endpoint.sandbox, rb)]
    else
      responseFor (upstream e1 rb) b now [(e1, rb)]

/-- The final upstream data used for the response, given the extracted receipt
`r`: the sandbox retry's response when the retry condition fired, the first
response otherwise. -/
def finalData (upstream : Endpoint → VerificationRequest → AppleResponse)
    (secret : String) (b : RequestBody) (r : String) : AppleResponse :=
  if ((upstream (initialEndpoint b) (mkVerificationRequest secret r)).status == 21007)
      && !(initialEndpoint b == Endpoint.sandbox) then
    upstream Endpoint.sandbox (mkVerificationRequest secret r)
  else
    upstream (initialEndpoint b) (mkVerificationRequest secret r)

/-- The list of outbound calls, given the extracted receipt `r`. -/
def callsList (upstream : Endpoint → VerificationRequest → AppleResponse)
    (secret : String) (b : RequestBody) (r : String) :
    List (Endpoint × VerificationRequest) :=
  if ((upstream (initialEndpoint b) (mkVerificationRequest secret r)).status == 21007)
      && !(initialEndpoint b == Endpoint.sandbox) then
    [(initialEndpoint b, mkVerificationRequest secret r),
     (Endpoint.sandbox, mkVerificationRequest secret r)]
  else
    [(initialEndpoint b, mkVerificationRequest secret r)]

/-- One step of the head-of-sort recurrence: inserting `x` changes the head of
the sorted prefix exactly when the comparator puts `x` strictly in front. -/
def champStep (b : Option Transaction) (x : Transaction) : Option Transaction :=
  match b with
  | none => some x
  | some y => if jsLtZero (cmpT x y) then some x else some y

/-- The head of the sorted prefix after processing the list, starting from the
head `b` of the initial accumulator. -/
def champAux : List Transaction → Option Transaction → Option Transaction
  | [], b => b
  | x :: xs, b => champAux xs (champStep b x)

/-- Specification-side champion step: replace the current champion exactly
when the new transaction's expiry key is strictly greater. -/
def specStep (b : Option Transaction) (x : Transaction) : Option Transaction :=
  match b with
  | none => some x
  | some y => if keySpec y < keySpec x then some x else some y

/-- Specification-side left-to-right champion scan. -/
def specChampAux : List Transaction → Option Transaction → Option Transaction
  | [], b => b
  | x :: xs, b => specChampAux xs (specStep b x)

/-- Stated from the spec's words for `latestTransaction`: the transaction with
the maximum expiry key, ties broken in favour of the earlier position in the
original sequence (the left-to-right scan only replaces the champion on a
strictly greater key). -/
def firstMaxByKey (l : List Transaction) : Option Transaction :=
  specChampAux l none

/-- A transaction with a non-numeric (NaN-converting, e.g. the string "abc")
expiry value. -/
def cexNanTx : Transaction := ⟨JsField.value JSNum.nan, some "pNaN"⟩

/-- A transaction with the finite expiry 100. -/
def cexFinTx : Transaction := ⟨JsField.value (JSNum.fin 100), some "pFin"⟩

/-- A transaction with no `expires_date_ms` property. -/
def cexAbsentTx : Transaction := ⟨JsField.absent, none⟩

/-- A transaction with the finite negative expiry -5. -/
def cexNegTx : Transaction := ⟨JsField.value (JSNum.fin (-5)), none⟩

/-- A concrete active transaction used by witnesses. -/
def demoTx : Transaction := ⟨JsField.value (JSNum.fin 2000), some "p1"⟩

/-- A successful upstream response carrying `demoTx`. -/
def demoOkResponse : AppleResponse :=
  ⟨0, some "Sandbox", some [demoTx], some "blob", none⟩

/-- The test-environment redirect response (status 21007). -/
def demoTestEnvResponse : AppleResponse := ⟨21007, none, none, none, none⟩

/-- A shared-secret-mismatch rejection (status 21004) still carrying
transaction data. -/
def demoRejectResponse : AppleResponse :=
  ⟨21004, some "Production", some [demoTx], none, none⟩

/-- An oracle whose Production endpoint redirects to the test environment and
whose Sandbox endpoint accepts. -/
def demoUpstream : Endpoint → VerificationRequest → AppleResponse
  | Endpoint.production, _ => demoTestEnvResponse
  | Endpoint.sandbox, _ => demoOkResponse

/-- An oracle that always rejects with status 21004. -/
def demoRejectUpstream : Endpoint → VerificationRequest → AppleResponse :=
  fun _ _ => demoRejectResponse

/-- An oracle that always accepts. -/
def demoOkUpstream : Endpoint → VerificationRequest → AppleResponse :=
  fun _ _ => demoOkResponse

/-- A request body carrying a receipt under the `receipt-data` alias. -/
def demoBody : RequestBody := ⟨some "RCPT", none, none, none, false⟩

/-- A request body carrying a receipt and a caller-supplied product id. -/
def demoBodyPid : RequestBody := ⟨some "RCPT", none, none, some "override", false⟩

/-- A request body with no receipt under any accepted alias (one alias present
but empty). -/
def demoEmptyBody : RequestBody := ⟨none, some "", none, some "p", true⟩

/-- A singleton transaction list used by witnesses. -/
def demoTxList : List Transaction := [⟨JsField.value (JSNum.fin 100), none⟩]

/-- A two-element all-finite transaction list used by witnesses. -/
def demoTxList2 : List Transaction :=
  [⟨JsField.value (JSNum.fin 50), some "a"⟩, ⟨JsField.value (JSNum.fin 100), some "b"⟩]

/-- A singleton store holding one array with one record. -/
def demoStore : List (List JEntry) := [[JEntry.obj demoTx]]

theorem mem_insertT (x a : Transaction) (l : List Transaction) :
    a ∈ insertT x l ↔ a = x ∨ a ∈ l := by
  induction l with
  | nil => simp [insertT]
  | cons y ys ih =>
    cases h : jsLtZero (cmpT x y) with
    | true => simp [insertT, h, List.mem_cons]
    | false =>
      simp [insertT, h, List.mem_cons, ih]
      tauto

theorem mem_sortTAux (a : Transaction) (l : List Transaction) :
    ∀ acc, a ∈ sortTAux l acc ↔ a ∈ l ∨ a ∈ acc := by
  induction l with
  | nil => intro acc; simp [sortTAux]
  | cons x xs ih =>
    intro acc
    rw [sortTAux, ih, mem_insertT]
    simp [List.mem_cons]
    tauto

theorem mem_sortT (a : Transaction) (l : List Transaction) :
    a ∈ sortT l ↔ a ∈ l := by
  rw [sortT, mem_sortTAux]
  simp

theorem activeP_iff (t : Transaction) (now : Int) (hnow : 0 ≤ now) :
    activeP now t = true ↔ ∃ x, numericExpiry t = some x ∧ now < x := by
  obtain ⟨f, pid⟩ := t
  cases f with
  | absent =>
    simp [activeP, expiryKey, jsFiniteB, jsGtNowB, numericExpiry]
    omega
  | falsy =>
    simp [activeP, expiryKey, jsFiniteB, jsGtNowB, numericExpiry]
  | value n =>
    cases n with
    | nan => simp [activeP, expiryKey, jsFiniteB, jsGtNowB, numericExpiry]
    | posInf => simp [activeP, expiryKey, jsFiniteB, jsGtNowB, numericExpiry]
    | negInf => simp [activeP, expiryKey, jsFiniteB, jsGtNowB, numericExpiry]
    | fin x =>
      simp [activeP, expiryKey, jsFiniteB, jsGtNowB, numericExpiry]

theorem head?_insertT (x : Transaction) (l : List Transaction) :
    (insertT x l).head? = champStep l.head? x := by
  cases l with
  | nil => rfl
  | cons y ys =>
    cases h : jsLtZero (cmpT x y) <;> simp [insertT, h, champStep]

theorem head?_sortTAux (l : List Transaction) :
    ∀ acc, (sortTAux l acc).head? = champAux l acc.head? := by
  induction l with
  | nil => intro acc; rfl
  | cons x xs ih =>
    intro acc
    rw [sortTAux, champAux, ih, head?_insertT]

theorem head?_sortT (l : List Transaction) :
    (sortT l).head? = champAux l none := by
  rw [sortT, head?_sortTAux]
  rfl

theorem expiryKey_fin_keySpec (t : Transaction)
    (h : jsFiniteB (expiryKey t) = true) :
    expiryKey t = JSNum.fin (keySpec t) := by
  obtain ⟨f, pid⟩ := t
  cases f with
  | absent => rfl
  | falsy => rfl
  | value n =>
    cases n with
    | nan => simp [expiryKey, jsFiniteB] at h
    | posInf => simp [expiryKey, jsFiniteB] at h
    | negInf => simp [expiryKey, jsFiniteB] at h
    | fin x => rfl

theorem champStep_eq_specStep (b : Option Transaction) (x : Transaction)
    (hx : jsFiniteB (expiryKey x) = true)
    (hb : ∀ y, b = some y → jsFiniteB (expiryKey y) = true) :
    champStep b x = specStep b x := by
  cases b with
  | none => rfl
  | some y =>
    have hy := hb y rfl
    have ex := expiryKey_fin_keySpec x hx
    have ey := expiryKey_fin_keySpec y hy
    have hiff : (keySpec y - keySpec x < 0) ↔ (keySpec y < keySpec x) := by omega
    simp [champStep, specStep, cmpT, ex, ey, jsSub, jsLtZero, hiff]

theorem specStep_mem (b : Option Transaction) (x y : Transaction)
    (h : specStep b x = some y) : y = x ∨ b = some y := by
  cases b with
  | none =>
    simp [specStep] at h
    exact Or.inl h.symm
  | some z =>
    simp only [specStep] at h
    split at h
    · injection h with h
      exact Or.inl h.symm
    · injection h with h
      exact Or.inr (by rw [h])

theorem champAux_eq_specChampAux (l : List Transaction) :
    ∀ b, (∀ t ∈ l, jsFiniteB (expiryKey t) = true) →
      (∀ y, b = some y → jsFiniteB (expiryKey y) = true) →
      champAux l b = specChampAux l b := by
  induction l with
  | nil => intro b _ _; rfl
  | cons x xs ih =>
    intro b hl hb
    have hx : jsFiniteB (expiryKey x) = true := hl x (by simp)
    rw [champAux, specChampAux, champStep_eq_specStep b x hx hb]
    apply ih
    · intro t ht
      exact hl t (by simp [ht])
    · intro y hy
      rcases specStep_mem b x y hy with h | h
      · rw [h]; exact hx
      · exact hb y h

theorem specStep_isSome (b : Option Transaction) (x : Transaction) :
    ∃ c, specStep b x = some c := by
  cases b with
  | none => exact ⟨x, rfl⟩
  | some z =>
    simp only [specStep]
    split
    · exact ⟨x, rfl⟩
    · exact ⟨z, rfl⟩

theorem specChampAux_max (l : List Transaction) :
    ∀ b r, specChampAux l b = some r →
      (∀ y, b = some y → keySpec y ≤ keySpec r) ∧
      (∀ u ∈ l, keySpec u ≤ keySpec r) := by
  induction l with
  | nil =>
    intro b r h
    refine ⟨fun y hy => ?_, fun u hu => absurd hu (by simp)⟩
    rw [hy] at h
    injection h with h
    rw [h]
  | cons x xs ih =>
    intro b r h
    rw [specChampAux] at h
    obtain ⟨h1, h2⟩ := ih (specStep b x) r h
    obtain ⟨c, hcEq⟩ := specStep_isSome b x
    have hcr : keySpec c ≤ keySpec r := h1 c hcEq
    have hxc : keySpec x ≤ keySpec c ∧ ∀ y, b = some y → keySpec y ≤ keySpec c := by
      cases b with
      | none =>
        simp [specStep] at hcEq
        rw [hcEq]
        exact ⟨le_refl _, by intro y hy; cases hy⟩
      | some z =>
        simp only [specStep] at hcEq
        by_cases hsp : keySpec z < keySpec x
        · rw [if_pos hsp] at hcEq
          injection hcEq with e
          have hk : keySpec x = keySpec c := by rw [e]
          refine ⟨by omega, ?_⟩
          intro y hy
          injection hy with e2
          have hk2 : keySpec z = keySpec y := by rw [e2]
          omega
        · rw [if_neg hsp] at hcEq
          injection hcEq with e
          have hk : keySpec z = keySpec c := by rw [e]
          refine ⟨by omega, ?_⟩
          intro y hy
          injection hy with e2
          have hk2 : keySpec z = keySpec y := by rw [e2]
          omega
    refine ⟨fun y hy => le_trans (hxc.2 y hy) hcr, fun u hu => ?_⟩
    rcases List.mem_cons.mp hu with h3 | h3
    · rw [h3]
      exact le_trans hxc.1 hcr
    · exact h2 u h3

theorem specChampAux_some (l : List Transaction) :
    ∀ y, ∃ r, specChampAux l (some y) = some r := by
  induction l with
  | nil => intro y; exact ⟨y, rfl⟩
  | cons x xs ih =>
    intro y
    rw [specChampAux]
    obtain ⟨c, hc⟩ := specStep_isSome (some y) x
    rw [hc]
    exact ih c

theorem resolveT_isPremium_iff (l : List Transaction) (now : Int)
    (hnow : 0 ≤ now) :
    (resolveT l now).isPremium = true ↔
      ∃ t ∈ l, ∃ x, numericExpiry t = some x ∧ now < x := by
  show ((sortT l).find? (activeP now)).isSome = true ↔ _
  rw [List.find?_isSome]
  constructor
  · rintro ⟨t, ht, hp⟩
    exact ⟨t, (mem_sortT t l).mp ht, (activeP_iff t now hnow).mp hp⟩
  · rintro ⟨t, ht, hx⟩
    exact ⟨t, (mem_sortT t l).mpr ht, (activeP_iff t now hnow).mpr hx⟩

theorem resolveT_latest_eq_champ (l : List Transaction) (now : Int) :
    (resolveT l now).latestTransaction = champAux l none := by
  show (sortT l).head? = champAux l none
  exact head?_sortT l

theorem resolveT_latest_firstMax (l : List Transaction) (now : Int)
    (hf : ∀ t ∈ l, jsFiniteB (expiryKey t) = true) :
    (resolveT l now).latestTransaction = firstMaxByKey l := by
  rw [resolveT_latest_eq_champ, firstMaxByKey]
  exact champAux_eq_specChampAux l none hf (by intro y hy; cases hy)

theorem entryExpiry_ok (e : JEntry) (h : e ≠ JEntry.jnull) :
    ∃ k, entryExpiry e = Except.ok k := by
  cases e with
  | jnull => exact absurd rfl h
  | prim b => exact ⟨JSNum.fin 0, rfl⟩
  | obj t => exact ⟨expiryKey t, rfl⟩

theorem compareE_ok (x y : JEntry) (hx : x ≠ JEntry.jnull)
    (hy : y ≠ JEntry.jnull) : ∃ r, compareE x y = Except.ok r := by
  obtain ⟨kx, hkx⟩ := entryExpiry_ok x hx
  obtain ⟨ky, hky⟩ := entryExpiry_ok y hy
  exact ⟨jsSub ky kx, by rw [compareE, hkx, hky]⟩

theorem insertE_ok (x : JEntry) (hx : x ≠ JEntry.jnull) :
    ∀ l, (∀ z ∈ l, z ≠ JEntry.jnull) →
      ∃ r, insertE x l = Except.ok r ∧ ∀ z ∈ r, z = x ∨ z ∈ l := by
  intro l
  induction l with
  | nil =>
    intro _
    exact ⟨[x], rfl, by simp⟩
  | cons y ys ih =>
    intro hl
    obtain ⟨r0, hr0⟩ := compareE_ok x y hx (hl y (by simp))
    obtain ⟨t, ht, hmem⟩ := ih (fun z hz => hl z (by simp [hz]))
    cases h : jsLtZero r0 with
    | true =>
      refine ⟨x :: y :: ys, ?_, by simp⟩
      simp [insertE, hr0, h]
    | false =>
      refine ⟨y :: t, ?_, ?_⟩
      · simp [insertE, hr0, h, ht]
      · intro z hz
        rcases List.mem_cons.mp hz with h2 | h2
        · exact Or.inr (by simp [h2])
        · rcases hmem z h2 with h3 | h3
          · exact Or.inl h3
          · exact Or.inr (by simp [h3])

theorem sortEAux_ok (l : List JEntry) :
    ∀ acc, (∀ z ∈ l, z ≠ JEntry.jnull) → (∀ z ∈ acc, z ≠ JEntry.jnull) →
      ∃ r, sortEAux l acc = Except.ok r ∧ ∀ z ∈ r, z ∈ l ∨ z ∈ acc := by
  induction l with
  | nil =>
    intro acc _ _
    exact ⟨acc, rfl, by simp⟩
  | cons x xs ih =>
    intro acc hl hacc
    obtain ⟨acc2, hacc2, hmem2⟩ :=
      insertE_ok x (hl x (by simp)) acc hacc
    have hacc2null : ∀ z ∈ acc2, z ≠ JEntry.jnull := by
      intro z hz
      rcases hmem2 z hz with h | h
      · rw [h]; exact hl x (by simp)
      · exact hacc z h
    obtain ⟨r, hr, hmem⟩ := ih acc2 (fun z hz => hl z (by simp [hz])) hacc2null
    refine ⟨r, ?_, ?_⟩
    · rw [sortEAux, hacc2]
      exact hr
    · intro z hz
      rcases hmem z hz with h | h
      · exact Or.inl (by simp [h])
      · rcases hmem2 z h with h2 | h2
        · exact Or.inl (by simp [h2])
        · exact Or.inr h2

theorem findActiveE_ok (now : Int) :
    ∀ l, (∀ z ∈ l, z ≠ JEntry.jnull) →
      ∃ o, findActiveE now l = Except.ok o := by
  intro l
  induction l with
  | nil => intro _; exact ⟨none, rfl⟩
  | cons e es ih =>
    intro hl
    obtain ⟨k, hk⟩ := entryExpiry_ok e (hl e (by simp))
    cases h : jsFiniteB k && jsGtNowB k now with
    | true =>
      refine ⟨some e, ?_⟩
      simp [findActiveE, hk, h]
    | false =>
      obtain ⟨o, ho⟩ := ih (fun z hz => hl z (by simp [hz]))
      refine ⟨o, ?_⟩
      simp [findActiveE, hk, h, ho]

theorem determineSubscriptionStatus_ok (l : List JEntry) (now : Int)
    (h : ∀ e ∈ l, e ≠ JEntry.jnull) :
    ∃ s, determineSubscriptionStatus (JsArg.arr l) now = Except.ok s := by
  obtain ⟨sorted, hs, hmem⟩ := sortEAux_ok l [] h (by simp)
  have hsv : ∀ z ∈ sorted, z ≠ JEntry.jnull := by
    intro z hz
    rcases hmem z hz with h2 | h2
    · exact h z h2
    · cases h2
  obtain ⟨o, ho⟩ := findActiveE_ok now sorted hsv
  refine ⟨⟨entryTruthyOpt o, headOrNull sorted⟩, ?_⟩
  simp [determineSubscriptionStatus, sortE, hs, ho]

theorem compareE_obj (a b : Transaction) :
    compareE (JEntry.obj a) (JEntry.obj b) = Except.ok (cmpT a b) := rfl

theorem insertE_obj (t : Transaction) :
    ∀ acc : List Transaction,
      insertE (JEntry.obj t) (acc.map JEntry.obj) =
        Except.ok ((insertT t acc).map JEntry.obj) := by
  intro acc
  induction acc with
  | nil => rfl
  | cons y ys ih =>
    rw [List.map_cons, insertE, compareE_obj]
    cases h : jsLtZero (cmpT t y) with
    | true => simp [insertT, h]
    | false => simp [insertT, h, ih]

theorem sortEAux_obj (l : List Transaction) :
    ∀ acc : List Transaction,
      sortEAux (l.map JEntry.obj) (acc.map JEntry.obj) =
        Except.ok ((sortTAux l acc).map JEntry.obj) := by
  induction l with
  | nil => intro acc; rfl
  | cons x xs ih =>
    intro acc
    rw [List.map_cons, sortEAux, insertE_obj, sortTAux]
    exact ih (insertT x acc)

theorem findActiveE_obj (now : Int) (s : List Transaction) :
    findActiveE now (s.map JEntry.obj) =
      Except.ok ((s.find? (activeP now)).map JEntry.obj) := by
  induction s with
  | nil => rfl
  | cons t ts ih =>
    rw [List.map_cons, findActiveE]
    show (if jsFiniteB (expiryKey t) && jsGtNowB (expiryKey t) now then _ else _) = _
    cases h : jsFiniteB (expiryKey t) && jsGtNowB (expiryKey t) now with
    | true =>
      rw [List.find?]
      simp [activeP, h]
    | false =>
      rw [List.find?]
      simp only [activeP, h, if_false]
      simpa using ih

theorem headOrNull_obj (s : List Transaction) :
    headOrNull (s.map JEntry.obj) = s.head?.map JEntry.obj := by
  cases s with
  | nil => rfl
  | cons t ts => simp [headOrNull, entryTruthy]

theorem entryTruthyOpt_obj (o : Option Transaction) :
    entryTruthyOpt (o.map JEntry.obj) = o.isSome := by
  cases o <;> rfl

/-- Agreement of the two resolver models: on an array of transaction records
(the shape a well-formed upstream response supplies), the full-fidelity
`determineSubscriptionStatus` never throws and computes exactly `resolveT`. -/
theorem determineSubscriptionStatus_obj (l : List Transaction) (now : Int) :
    determineSubscriptionStatus (JsArg.arr (l.map JEntry.obj)) now =
      Except.ok ⟨(resolveT l now).isPremium,
        (resolveT l now).latestTransaction.map JEntry.obj⟩ := by
  have hsort : sortE (l.map JEntry.obj) =
      Except.ok ((sortT l).map JEntry.obj) := by
    rw [sortE, sortT]
    exact sortEAux_obj l []
  simp only [determineSubscriptionStatus, hsort, findActiveE_obj,
    headOrNull_obj, entryTruthyOpt_obj, resolveT]

theorem verifyReceiptHandler_eq
    (upstream : Endpoint → VerificationRequest → AppleResponse)
    (secret : String) (b : RequestBody) (now : Int) (r : String)
    (hr : extractReceiptData b = some r) :
    verifyReceiptHandler upstream secret b now =
      responseFor (finalData upstream secret b r) b now
        (callsList upstream secret b r) := by
  simp only [verifyReceiptHandler, hr, finalData, callsList]
  cases hc : ((upstream (initialEndpoint b) (mkVerificationRequest secret r)).status == 21007)
      && !(initialEndpoint b == Endpoint.sandbox) with
  | true => simp [hc]
  | false => simp [hc]

theorem retryCond_iff (upstream : Endpoint → VerificationRequest → AppleResponse)
    (secret : String) (b : RequestBody) (r : String) :
    (((upstream (initialEndpoint b) (mkVerificationRequest secret r)).status == 21007)
        && !(initialEndpoint b == Endpoint.sandbox)) = true ↔
      ((upstream (initialEndpoint b) (mkVerificationRequest secret r)).status = 21007 ∧
        initialEndpoint b ≠ Endpoint.sandbox) := by
  simp

/-- C1: for every transaction sequence and nonnegative wall-clock time `now`,
the resolver returns `isPremium = true` iff at least one transaction's
expiration timestamp is a finite number strictly greater than `now`,
regardless of that transaction's position; in particular, if every
transaction's expiry is at most `now`, `isPremium` is false. -/
theorem claim_c1_isPremium_iff (l : List Transaction) (now : Int)
    (hnow : 0 ≤ now) :
    (resolveT l now).isPremium = true ↔
      ∃ t ∈ l, ∃ x, numericExpiry t = some x ∧ now < x :=
  resolveT_isPremium_iff l now hnow

/-- C1 witness: the theorem instantiated at a singleton list with expiry 100
and clock 5. -/
theorem claim_c1_witness :
    0 ≤ (5 : Int) ∧
      ((resolveT demoTxList 5).isPremium = true ↔
        ∃ t ∈ demoTxList, ∃ x, numericExpiry t = some x ∧ 5 < x) :=
  ⟨by decide, claim_c1_isPremium_iff demoTxList 5 (by decide)⟩

/-- C2 counterexample: on the sequence [non-numeric-expiry, expiry-100] the
code's `latestTransaction` is the non-numeric entry (the comparator returns
NaN, which sorts as a tie, so the stable sort keeps it in front), while the
transaction with the maximum expiration timestamp is the second entry — so
`latestTransaction` is not the maximum-expiry transaction. -/
theorem claim_c2_counterexample :
    (resolveT [cexNanTx, cexFinTx] 50).latestTransaction = some cexNanTx ∧
    firstMaxByKey [cexNanTx, cexFinTx] = some cexFinTx ∧
    cexNanTx ≠ cexFinTx ∧
    numericExpiry cexNanTx = none ∧ numericExpiry cexFinTx = some 100 := by
  decide

/-- C2 amended: for every non-empty transaction sequence all of whose expiry
values convert to finite numbers, `latestTransaction` equals the transaction
with the maximum expiry key, ties broken in favour of the earlier position
(`firstMaxByKey`), even when that transaction is already expired (the clock
`now` is arbitrary). -/
theorem claim_c2_amended (l : List Transaction) (now : Int) (hne : l ≠ [])
    (hf : ∀ t ∈ l, jsFiniteB (expiryKey t) = true) :
    (resolveT l now).latestTransaction = firstMaxByKey l ∧
    ∃ m, firstMaxByKey l = some m := by
  refine ⟨resolveT_latest_firstMax l now hf, ?_⟩
  cases l with
  | nil => exact absurd rfl hne
  | cons x xs =>
    rw [firstMaxByKey, specChampAux]
    have h : specStep none x = some x := rfl
    rw [h]
    exact specChampAux_some xs x

/-- C2 amended witness: the theorem instantiated at a two-element all-finite
sequence. -/
theorem claim_c2_witness :
    (demoTxList2 ≠ [] ∧ ∀ t ∈ demoTxList2, jsFiniteB (expiryKey t) = true) ∧
    ((resolveT demoTxList2 7).latestTransaction = firstMaxByKey demoTxList2 ∧
      ∃ m, firstMaxByKey demoTxList2 = some m) :=
  ⟨⟨by decide, by decide⟩,
    claim_c2_amended demoTxList2 7 (by decide) (by decide)⟩

/-- C3 counterexample: on the sequence [absent-expiry, expiry-(-5)] the
absent-expiry transaction becomes `latestTransaction` (its `|| 0` key beats
the negative key) although the other entry's expiry is neither absent nor
zero — refuting "never wins the sort unless every entry has an equally
absent/zero expiry". -/
theorem claim_c3_counterexample :
    (resolveT [cexAbsentTx, cexNegTx] 0).latestTransaction = some cexAbsentTx ∧
    cexAbsentTx.expires_date_ms = JsField.absent ∧
    numericExpiry cexNegTx = some (-5) ∧ keySpec cexNegTx ≠ 0 := by
  decide

/-- C3 amended: a transaction whose expiration timestamp is 0, missing, or
non-numeric never makes `isPremium` true (whenever `isPremium` is true some
transaction has a finite, strictly positive expiry beyond `now`), and — on
sequences with all-finite expiry keys — such a transaction (key 0) becomes
`latestTransaction` only when every entry's expiry key is at most 0 (entries
with negative keys may lose to it, so "equally absent" is not required). -/
theorem claim_c3_amended (l : List Transaction) (now : Int) (hnow : 0 ≤ now) :
    ((resolveT l now).isPremium = true →
      ∃ t ∈ l, ∃ x, numericExpiry t = some x ∧ 0 < x ∧ now < x) ∧
    ((∀ u ∈ l, jsFiniteB (expiryKey u) = true) →
      ∀ t, (resolveT l now).latestTransaction = some t → keySpec t = 0 →
        ∀ u ∈ l, keySpec u ≤ 0) := by
  constructor
  · intro hp
    obtain ⟨t, ht, x, hx, hlt⟩ := (resolveT_isPremium_iff l now hnow).mp hp
    exact ⟨t, ht, x, hx, by omega, hlt⟩
  · intro hf t hlatest ht0 u hu
    rw [resolveT_latest_firstMax l now hf, firstMaxByKey] at hlatest
    have hle := (specChampAux_max l none t hlatest).2 u hu
    omega

/-- C3 amended witness: the theorem instantiated at a singleton list and
clock 3. -/
theorem claim_c3_witness :
    0 ≤ (3 : Int) ∧
    (((resolveT demoTxList 3).isPremium = true →
        ∃ t ∈ demoTxList, ∃ x, numericExpiry t = some x ∧ 0 < x ∧ 3 < x) ∧
      ((∀ u ∈ demoTxList, jsFiniteB (expiryKey u) = true) →
        ∀ t, (resolveT demoTxList 3).latestTransaction = some t → keySpec t = 0 →
          ∀ u ∈ demoTxList, keySpec u ≤ 0)) :=
  ⟨by decide, claim_c3_amended demoTxList 3 (by decide)⟩

/-- C4 counterexample: the resolver is not total on sequences with malformed
entries — on the array `[null]`, evaluating the `find` predicate reads
`null.expires_date_ms` and throws a TypeError. -/
theorem claim_c4_counterexample :
    determineSubscriptionStatus (JsArg.arr [JEntry.jnull]) 0 =
      Except.error JsErr.typeError := rfl

/-- C4 amended: the resolver never throws on non-sequence input, the empty
sequence, or any sequence whose entries are all non-null (objects or boxed
primitives, however malformed), and empty or non-sequence input yields
exactly `{isPremium: false, latestTransaction: absent}`; only a sequence
containing a null/undefined entry throws. -/
theorem claim_c4_amended (now : Int) :
    determineSubscriptionStatus JsArg.notArray now = Except.ok ⟨false, none⟩ ∧
    determineSubscriptionStatus JsArg.undef now = Except.ok ⟨false, none⟩ ∧
    determineSubscriptionStatus (JsArg.arr []) now = Except.ok ⟨false, none⟩ ∧
    ∀ l, (∀ e ∈ l, e ≠ JEntry.jnull) →
      ∃ s, determineSubscriptionStatus (JsArg.arr l) now = Except.ok s :=
  ⟨rfl, rfl, rfl, fun l h => determineSubscriptionStatus_ok l now h⟩

/-- C4 amended witness: the totality conjunct instantiated at a two-element
array containing a record and a boxed primitive. -/
theorem claim_c4_witness :
    (∀ e ∈ [JEntry.obj demoTx, JEntry.prim true], e ≠ JEntry.jnull) ∧
    ∃ s, determineSubscriptionStatus
      (JsArg.arr [JEntry.obj demoTx, JEntry.prim true]) 0 = Except.ok s :=
  ⟨by decide,
    (claim_c4_amended 0).2.2.2 [JEntry.obj demoTx, JEntry.prim true] (by decide)⟩

/-- C9: the resolver leaves its input array unchanged — it spreads the
argument into a fresh array and sorts only that copy, so every pre-existing
array in the store (in particular the argument) holds the same elements in
the same order after the call. -/
theorem claim_c9_frame (store : List (List JEntry)) (argId : Nat) (now : Int)
    (j : Nat) (hj : j < store.length) :
    ((determineSubscriptionStatusHeap store argId now).1)[j]? = store[j]? := by
  simp only [determineSubscriptionStatusHeap]
  cases h : sortE ((store[argId]?).getD []) with
  | error e =>
    simp only [h]
    exact List.getElem?_append_left hj
  | ok sorted =>
    cases h2 : findActiveE now sorted with
    | error e =>
      simp only [h, h2]
      rw [List.getElem?_set_ne (by omega)]
      exact List.getElem?_append_left hj
    | ok active =>
      simp only [h, h2]
      rw [List.getElem?_set_ne (by omega)]
      exact List.getElem?_append_left hj

/-- C9 witness: the frame property instantiated at a singleton store. -/
theorem claim_c9_witness :
    0 < demoStore.length ∧
      ((determineSubscriptionStatusHeap demoStore 0 5).1)[0]? = demoStore[0]? :=
  ⟨by decide, claim_c9_frame demoStore 0 5 0 (by decide)⟩

/-- C5: when the first response's status is the test-environment sentinel
21007 and the first attempt was not already at Sandbox, the handler resends
the identical request to the Sandbox endpoint exactly once and assembles the
final response from that second response, whatever its status; in every other
case no second upstream call is made and the first response is final. -/
theorem claim_c5_retry (upstream : Endpoint → VerificationRequest → AppleResponse)
    (secret : String) (b : RequestBody) (now : Int) (r : String)
    (hr : extractReceiptData b = some r) :
    (((upstream (initialEndpoint b) (mkVerificationRequest secret r)).status = 21007 ∧
        initialEndpoint b ≠ Endpoint.sandbox) →
      verifyReceiptHandler upstream secret b now =
        responseFor (upstream Endpoint.sandbox (mkVerificationRequest secret r)) b now
          [(initialEndpoint b, mkVerificationRequest secret r),
           (Endpoint.sandbox, mkVerificationRequest secret r)]) ∧
    (¬ ((upstream (initialEndpoint b) (mkVerificationRequest secret r)).status = 21007 ∧
        initialEndpoint b ≠ Endpoint.sandbox) →
      verifyReceiptHandler upstream secret b now =
        responseFor (upstream (initialEndpoint b) (mkVerificationRequest secret r)) b now
          [(initialEndpoint b, mkVerificationRequest secret r)]) := by
  have heq := verifyReceiptHandler_eq upstream secret b now r hr
  constructor
  · intro hp
    have hc : (((upstream (initialEndpoint b) (mkVerificationRequest secret r)).status == 21007)
        && !(initialEndpoint b == Endpoint.sandbox)) = true :=
      (retryCond_iff upstream secret b r).mpr hp
    rw [heq]
    simp only [finalData, callsList, hc, if_true]
  · intro hn
    have hc : (((upstream (initialEndpoint b) (mkVerificationRequest secret r)).status == 21007)
        && !(initialEndpoint b == Endpoint.sandbox)) = false := by
      cases hcb : ((upstream (initialEndpoint b) (mkVerificationRequest secret r)).status == 21007)
          && !(initialEndpoint b == Endpoint.sandbox) with
      | true => exact absurd ((retryCond_iff upstream secret b r).mp hcb) hn
      | false => rfl
    rw [heq]
    simp only [finalData, callsList, hc, Bool.false_eq_true, if_false]

/-- C5 witness: with an oracle whose Production endpoint answers 21007 and a
non-sandbox request, the handler makes exactly the two calls and uses the
Sandbox response as final. -/
theorem claim_c5_witness :
    extractReceiptData demoBody = some "RCPT" ∧
    ((demoUpstream (initialEndpoint demoBody) (mkVerificationRequest "s3cr3t" "RCPT")).status = 21007 ∧
      initialEndpoint demoBody ≠ Endpoint.sandbox) ∧
    verifyReceiptHandler demoUpstream "s3cr3t" demoBody 1000 =
      responseFor (demoUpstream Endpoint.sandbox (mkVerificationRequest "s3cr3t" "RCPT"))
        demoBody 1000
        [(initialEndpoint demoBody, mkVerificationRequest "s3cr3t" "RCPT"),
         (Endpoint.sandbox, mkVerificationRequest "s3cr3t" "RCPT")] :=
  ⟨rfl, ⟨by decide, by decide⟩,
    (claim_c5_retry demoUpstream "s3cr3t" demoBody 1000 "RCPT" rfl).1
      ⟨by decide, by decide⟩⟩

/-- C6: a final upstream response with a non-zero status yields a rejection
(HTTP 400, success false) carrying the original numeric status code and the
message from the fixed table; status 21004 yields exactly the shared-secret
message, and a status not in the table yields the generic unknown-status
message. -/
theorem claim_c6_rejection (upstream : Endpoint → VerificationRequest → AppleResponse)
    (secret : String) (b : RequestBody) (now : Int) (r : String)
    (hr : extractReceiptData b = some r)
    (h0 : (finalData upstream secret b r).status ≠ 0) :
    (verifyReceiptHandler upstream secret b now).httpStatus = 400 ∧
    (verifyReceiptHandler upstream secret b now).body.success = false ∧
    (verifyReceiptHandler upstream secret b now).body.statusField =
      some (finalData upstream secret b r).status ∧
    (verifyReceiptHandler upstream secret b now).body.message =
      appleStatusMessage (finalData upstream secret b r).status ∧
    ((finalData upstream secret b r).status = 21004 →
      (verifyReceiptHandler upstream secret b now).body.message =
        "The shared secret you provided does not match the one on file.") ∧
    (APPLE_STATUS_MESSAGES (finalData upstream secret b r).status = none →
      (verifyReceiptHandler upstream secret b now).body.message =
        "Apple receipt validation failed with an unknown status.") := by
  have hz : ((finalData upstream secret b r).status == 0) = false := by simp [h0]
  have hmain : verifyReceiptHandler upstream secret b now =
      ⟨400, rejectResponse (finalData upstream secret b r)
        (resolveOpt (finalData upstream secret b r).latest_receipt_info now) b,
        callsList upstream secret b r⟩ := by
    rw [verifyReceiptHandler_eq upstream secret b now r hr, responseFor]
    simp [hz]
  rw [hmain]
  refine ⟨rfl, rfl, rfl, rfl, ?_, ?_⟩
  · intro h21
    show appleStatusMessage (finalData upstream secret b r).status = _
    rw [h21]
    rfl
  · intro hnone
    show appleStatusMessage (finalData upstream secret b r).status = _
    rw [appleStatusMessage, hnone]
    rfl

/-- C6 witness: the theorem instantiated at an oracle rejecting with 21004,
showing the exact shared-secret message. -/
theorem claim_c6_witness :
    extractReceiptData demoBody = some "RCPT" ∧
    (finalData demoRejectUpstream "sec" demoBody "RCPT").status ≠ 0 ∧
    (verifyReceiptHandler demoRejectUpstream "sec" demoBody 1000).body.statusField =
      some (finalData demoRejectUpstream "sec" demoBody "RCPT").status ∧
    (verifyReceiptHandler demoRejectUpstream "sec" demoBody 1000).body.message =
      "The shared secret you provided does not match the one on file." :=
  ⟨rfl, by decide,
    (claim_c6_rejection demoRejectUpstream "sec" demoBody 1000 "RCPT" rfl (by decide)).2.2.1,
    (claim_c6_rejection demoRejectUpstream "sec" demoBody 1000 "RCPT" rfl (by decide)).2.2.2.2.1
      (by decide)⟩

/-- C7: a rejection (non-zero final status) still carries an isPremium value
and latestTransaction computed by the resolver from the transaction data that
accompanied the rejection, not a hard-coded false. -/
theorem claim_c7_rejection_premium
    (upstream : Endpoint → VerificationRequest → AppleResponse)
    (secret : String) (b : RequestBody) (now : Int) (r : String)
    (hr : extractReceiptData b = some r)
    (h0 : (finalData upstream secret b r).status ≠ 0) :
    (verifyReceiptHandler upstream secret b now).body.isPremium =
      (resolveOpt (finalData upstream secret b r).latest_receipt_info now).isPremium ∧
    (verifyReceiptHandler upstream secret b now).body.latestTransaction =
      (resolveOpt (finalData upstream secret b r).latest_receipt_info now).latestTransaction := by
  have hz : ((finalData upstream secret b r).status == 0) = false := by simp [h0]
  have hmain : verifyReceiptHandler upstream secret b now =
      ⟨400, rejectResponse (finalData upstream secret b r)
        (resolveOpt (finalData upstream secret b r).latest_receipt_info now) b,
        callsList upstream secret b r⟩ := by
    rw [verifyReceiptHandler_eq upstream secret b now r hr, responseFor]
    simp [hz]
  rw [hmain]
  exact ⟨rfl, rfl⟩

/-- C7 witness: a 21004 rejection accompanied by a still-active transaction
produces isPremium = true in the rejection body. -/
theorem claim_c7_witness :
    extractReceiptData demoBody = some "RCPT" ∧
    (finalData demoRejectUpstream "sec" demoBody "RCPT").status ≠ 0 ∧
    ((verifyReceiptHandler demoRejectUpstream "sec" demoBody 1000).body.isPremium =
      (resolveOpt (finalData demoRejectUpstream "sec" demoBody "RCPT").latest_receipt_info 1000).isPremium ∧
     (verifyReceiptHandler demoRejectUpstream "sec" demoBody 1000).body.latestTransaction =
      (resolveOpt (finalData demoRejectUpstream "sec" demoBody "RCPT").latest_receipt_info 1000).latestTransaction) ∧
    (resolveOpt (finalData demoRejectUpstream "sec" demoBody "RCPT").latest_receipt_info 1000).isPremium = true :=
  ⟨rfl, by decide,
    claim_c7_rejection_premium demoRejectUpstream "sec" demoBody 1000 "RCPT" rfl (by decide),
    by decide⟩

/-- C8: a request whose body contains no receipt payload under any accepted
field name (each alias missing or empty) is answered with the 400
client-input-error body and no outbound call is made. -/
theorem claim_c8_missing_receipt
    (upstream : Endpoint → VerificationRequest → AppleResponse)
    (secret : String) (b : RequestBody) (now : Int)
    (h1 : b.receipt_data = none ∨ b.receipt_data = some "")
    (h2 : b.receiptData = none ∨ b.receiptData = some "")
    (h3 : b.receipt = none ∨ b.receipt = some "") :
    verifyReceiptHandler upstream secret b now = ⟨400, clientErrorResponse, []⟩ := by
  have he : extractReceiptData b = none := by
    have e1 : strTruthy b.receipt_data = false := by
      rcases h1 with h | h <;> simp [strTruthy, h]
    have e2 : strTruthy b.receiptData = false := by
      rcases h2 with h | h <;> simp [strTruthy, h]
    have e3 : strTruthy b.receipt = false := by
      rcases h3 with h | h <;> simp [strTruthy, h]
    simp [extractReceiptData, e1, e2, e3]
  simp [verifyReceiptHandler, he]

/-- C8 witness: a body whose only receipt alias is present but empty is
rejected with no outbound call. -/
theorem claim_c8_witness :
    (demoEmptyBody.receipt_data = none ∨ demoEmptyBody.receipt_data = some "") ∧
    (demoEmptyBody.receiptData = none ∨ demoEmptyBody.receiptData = some "") ∧
    (demoEmptyBody.receipt = none ∨ demoEmptyBody.receipt = some "") ∧
    verifyReceiptHandler demoOkUpstream "sec" demoEmptyBody 0 =
      ⟨400, clientErrorResponse, []⟩ :=
  ⟨Or.inl rfl, Or.inr rfl, Or.inl rfl,
    claim_c8_missing_receipt demoOkUpstream "sec" demoEmptyBody 0
      (Or.inl rfl) (Or.inr rfl) (Or.inl rfl)⟩

/-- C10: on a successful validation (final status 0) the response's productId
equals the caller-supplied productId when a non-empty one was provided;
otherwise the derived latestTransaction's product_id when that transaction
exists and carries a non-empty one; otherwise null. -/
theorem claim_c10_product_id
    (upstream : Endpoint → VerificationRequest → AppleResponse)
    (secret : String) (b : RequestBody) (now : Int) (r : String)
    (hr : extractReceiptData b = some r)
    (h0 : (finalData upstream secret b r).status = 0) :
    (∀ p, b.productId = some p → p ≠ "" →
      (verifyReceiptHandler upstream secret b now).body.productId = some p) ∧
    ((b.productId = none ∨ b.productId = some "") →
      (∀ t, (resolveOpt (finalData upstream secret b r).latest_receipt_info now).latestTransaction = some t →
        (∀ q, t.product_id = some q → q ≠ "" →
          (verifyReceiptHandler upstream secret b now).body.productId = some q) ∧
        ((t.product_id = none ∨ t.product_id = some "") →
          (verifyReceiptHandler upstream secret b now).body.productId = none)) ∧
      ((resolveOpt (finalData upstream secret b r).latest_receipt_info now).latestTransaction = none →
        (verifyReceiptHandler upstream secret b now).body.productId = none)) := by
  have hz : ((finalData upstream secret b r).status == 0) = true := by simp [h0]
  have hmain : verifyReceiptHandler upstream secret b now =
      ⟨200, successResponse (finalData upstream secret b r)
        (resolveOpt (finalData upstream secret b r).latest_receipt_info now) b,
        callsList upstream secret b r⟩ := by
    rw [verifyReceiptHandler_eq upstream secret b now r hr, responseFor]
    simp [hz]
  have hpid : (verifyReceiptHandler upstream secret b now).body.productId =
      successProductId b.productId
        (resolveOpt (finalData upstream secret b r).latest_receipt_info now).latestTransaction := by
    rw [hmain]
    rfl
  rw [hpid]
  constructor
  · intro p hp hpne
    rw [hp]
    have hpt : strTruthy (some p) = true := by simp [strTruthy, hpne]
    simp [successProductId, hpt]
  · intro hfalsy
    have hs : strTruthy b.productId = false := by
      rcases hfalsy with h | h <;> simp [strTruthy, h]
    constructor
    · intro t ht
      constructor
      · intro q hq hqne
        have hqt : strTruthy (some q) = true := by simp [strTruthy, hqne]
        simp [successProductId, hs, ht, hq, hqt]
      · intro hqcase
        have hqs : strTruthy t.product_id = false := by
          rcases hqcase with h | h <;> simp [strTruthy, h]
        simp [successProductId, hs, ht, hqs]
    · intro hnone
      simp [successProductId, hs, hnone]

/-- C10 witness: a caller-supplied productId overrides the transaction's
product_id on a successful validation. -/
theorem claim_c10_witness :
    extractReceiptData demoBodyPid = some "RCPT" ∧
    (finalData demoOkUpstream "sec" demoBodyPid "RCPT").status = 0 ∧
    demoBodyPid.productId = some "override" ∧
    (verifyReceiptHandler demoOkUpstream "sec" demoBodyPid 1000).body.productId =
      some "override" :=
  ⟨rfl, by decide, rfl,
    (claim_c10_product_id demoOkUpstream "sec" demoBodyPid 1000 "RCPT" rfl
      (by decide)).1 "override" rfl (by decide)⟩


